import Mathlib

/-!
Shallow embedding of the `gopher` interactive fix tool
(`src/fix-all-interactive.tsx`, `src/types.ts`).

The tool supervises long-running external `copilot` sessions (one per
workflow kind), captures their output into per-workflow log files, tracks a
one-word status file per workflow, and renders a polling dashboard.

Modelling conventions:
* File contents and process output chunks are `String`s; the filesystem and
  the supervised process are supplied as explicit environment records.
* Side effects are reified as an `Effect` trace in the order the source
  performs them.
* JavaScript numbers that hold small integers are modelled as `Int`/`Nat`.
* All string processing is done on `List Char` (`String.data`) so that every
  definition evaluates by kernel reduction.
-/

namespace Gopher

/-! ### Configuration constants (source lines 24-29) -/

def STATE_DIR : String := "tools/gopher/.copilot-fix-state"

def WORKFLOWS_FILE : String := STATE_DIR ++ "/selected-workflows.txt"

def PROJECTS_FILE : String := STATE_DIR ++ "/selected-projects.txt"

def LOG_DIR : String := STATE_DIR ++ "/logs"

def PROGRESS_DIR : String := STATE_DIR ++ "/progress"

def logFileOf (workflow : String) : String := LOG_DIR ++ "/" ++ workflow ++ ".log"

def statusFileOf (workflow : String) : String := LOG_DIR ++ "/" ++ workflow ++ ".status"

def promptFileOf (workflow : String) : String := LOG_DIR ++ "/" ++ workflow ++ ".prompt"

def progressFileOf (workflow : String) : String := PROGRESS_DIR ++ "/" ++ workflow ++ "-progress.json"

/-! ### Workflow tables (source lines 50-65)

Literal apostrophes in the source strings are written `\x27` and literal
braces `\x7b`/`\x7d`. -/

def WORKFLOW_INSTRUCTIONS : List (String × String) :=
  [("test", "TODO"),
   ("lint", "You are a linting expert. PROCESS: 1) Run the lint command (e.g. \x27npx nx lint <project>\x27), 2) Read all error output, 3) Fix ALL errors you can identify (unused imports, missing deps, etc), 4) Run lint again to verify. Work QUICKLY - don\x27t ask questions, just fix the issues following the ESLint rules. Avoid disabling rules unless absolutely necessary."),
   ("type", "You are a TypeScript expert. PROCESS: 1) Run type check (e.g. \x27npx nx type-check <project>\x27 or \x27tsc --noEmit\x27), 2) Read all error output, 3) Fix ALL type errors you can identify (add types, handle nulls, etc), 4) Run type check again to verify. Work QUICKLY - don\x27t ask questions, just fix the issues. Avoid using \x27any\x27 or \x27@ts-ignore\x27 unless absolutely necessary."),
   ("build", "You are a build expert. PROCESS: 1) Run build (e.g. \x27npx nx build <project>\x27), 2) Read all error output carefully, 3) Fix ALL errors you find (missing imports/index files, wrong paths, missing deps), 4) Run build again to verify. Work QUICKLY and DIRECTLY - don\x27t ask questions, just fix the issues. For import errors, find the correct file path or create missing index.js files. For missing dependencies, install them.")]

def WORKFLOW_ACTIONS : List (String × String) :=
  [("test", "fix the tests"),
   ("lint", "fix all linting errors"),
   ("type", "fix all TypeScript type errors"),
   ("build", "fix all build errors")]

def WORKFLOW_ORDER : List String := ["type", "build", "test", "lint"]

/-- JS `WORKFLOW_ACTIONS[workflow]` interpolated into a template literal:
an unknown key yields `undefined`, which stringifies to `"undefined"`. -/
def workflowActionOf (workflow : String) : String :=
  (WORKFLOW_ACTIONS.lookup workflow).getD "undefined"

def workflowInstructionsOf (workflow : String) : String :=
  (WORKFLOW_INSTRUCTIONS.lookup workflow).getD "undefined"

/-! ### `buildWorkflowTodo` (source lines 254-296) -/

/-- The fixed part of the prompt template before the TODO list
(source lines 259-282). -/
def promptPreamble (workflow workflowAction instructions : String) : String :=
  "You are a code quality automation expert. You have a structured TODO list to complete.\n" ++
  "\n" ++
  "EXECUTION RULES:\n" ++
  "1. Complete tasks in the EXACT order listed below\n" ++
  "2. For each task, run the command, analyze output, and fix any issues found\n" ++
  "3. After completing a task, mark it as DONE and move to the next\n" ++
  "4. Report progress after completing each task\n" ++
  "5. If a task passes with no errors, mark it DONE and proceed immediately\n" ++
  "6. Work continuously without waiting for confirmation\n" ++
  "\n" ++
  "PROGRESS TRACKING:\n" ++
  "IMPORTANT - Before starting each task, create/update a progress file to help the dashboard track your work:\n" ++
  "- Create: " ++ PROGRESS_DIR ++ "/" ++ workflow ++ "-progress.json\n" ++
  "- Format: \x7b\"current_project\": \"project-name\", \"current_task\": N, \"completed_projects\": [\"proj1\", \"proj2\"]\x7d\n" ++
  "- Update this file BEFORE starting each new project\n" ++
  "- Example: echo \x27\x7b\"current_project\": \"vulnerability-management\", \"current_task\": 1, \"completed_projects\": []\x7d\x27 > " ++ PROGRESS_DIR ++ "/" ++ workflow ++ "-progress.json\n" ++
  "- When a project completes successfully, add it to completed_projects array\n" ++
  "- This allows the dashboard to show real-time progress accurately\n" ++
  "\n" ++
  "WORKFLOW: " ++ workflowAction ++ "\n" ++
  "Instructions: " ++ instructions ++ "\n" ++
  "\n" ++
  "TODO LIST:\n"

/-- The fixed part of the prompt template after the TODO list
(source lines 288-293). -/
def promptEpilogue : String :=
  "\n" ++
  "After completing ALL tasks above, create a summary report showing:\n" ++
  "- Which projects had issues that were fixed\n" ++
  "- Which projects passed all checks\n" ++
  "- Any remaining issues that need manual attention\n"

/-- One line of the TODO list: `  ${idx + 1}. ${workflowAction} in ${project}\n`
(source line 285), with `idx` the 0-based position of `project`. -/
def todoLine (workflowAction : String) (idx : Nat) (project : String) : String :=
  "  " ++ toString (idx + 1) ++ ". " ++ workflowAction ++ " in " ++ project ++ "\n"

/-- `buildWorkflowTodo(workflow, projects)` (source lines 255-296): the prompt
preamble, then `projects.forEach((project, idx) => todo += ...)` modelled as a
fold over the enumerated project list, then the epilogue. -/
def buildWorkflowTodo (workflow : String) (projects : List String) : String :=
  let workflowAction := workflowActionOf workflow
  let todo := promptPreamble workflow workflowAction (workflowInstructionsOf workflow)
  let todo := projects.enum.foldl
    (fun acc ip => acc ++ todoLine workflowAction ip.1 ip.2) todo
  todo ++ promptEpilogue

/-! ### `sanitizeLogLine` (source lines 499-510)

The JS implementation applies four global string rewrites; each is modelled on
`List Char`. -/

/-- A character matched by `[0-9;]` inside a CSI escape sequence. -/
def isCsiParam (c : Char) : Bool := c.isDigit || c == ';'

/-- One global pass of `line.replace(/\x1b\[[0-9;]*[a-zA-Z]/g, "")`.
At each position: if the input starts with `ESC [`, a maximal run of `[0-9;]`
and then an ASCII letter, drop that whole escape sequence and continue after
it; otherwise keep one character and continue (JS `replace` with `/g` advances
by one on a failed match). `fuel` bounds the recursion; every step consumes at
least one character, so `fuel = length` is always sufficient. -/
def stripAnsiFuel : Nat → List Char → List Char
  | 0, l => l
  | _ + 1, [] => []
  | fuel + 1, '\x1b' :: '[' :: rest =>
    match rest.dropWhile isCsiParam with
    | c :: tail =>
      if c.isAlpha then stripAnsiFuel fuel tail
      else '\x1b' :: stripAnsiFuel fuel ('[' :: rest)
    | [] => '\x1b' :: stripAnsiFuel fuel ('[' :: rest)
  | fuel + 1, c :: rest => c :: stripAnsiFuel fuel rest

def stripAnsi (l : List Char) : List Char := stripAnsiFuel l.length l

/-- A character matched by `[\x00-\x08\x0B-\x0C\x0E-\x1F\x7F]`
(control characters other than tab, newline and carriage return). -/
def isStrippedControl (c : Char) : Bool :=
  c.toNat ≤ 0x08 ||
  (0x0B ≤ c.toNat && c.toNat ≤ 0x0C) ||
  (0x0E ≤ c.toNat && c.toNat ≤ 0x1F) ||
  c.toNat == 0x7F

/-- Whitespace removed by JS `String.prototype.trim` (ASCII part plus NBSP
and BOM; more exotic Unicode space separators are not modelled). -/
def jsWhitespace (c : Char) : Bool :=
  c == ' ' || c == '\t' || c == '\n' || c == '\r' ||
  c.toNat == 0x0B || c.toNat == 0x0C || c.toNat == 0xA0 || c.toNat == 0xFEFF

def trimChars (l : List Char) : List Char :=
  ((l.dropWhile jsWhitespace).reverse.dropWhile jsWhitespace).reverse

/-- `sanitizeLogLine(line)` (source lines 500-510): strip ANSI escape
sequences, strip control characters except newline and tab, strip carriage
returns, then trim. -/
def sanitizeLogLine (line : String) : String :=
  let cleaned := stripAnsi line.data
  let cleaned := cleaned.filter (fun c => !isStrippedControl c)
  let cleaned := cleaned.filter (fun c => c != '\r')
  String.mk (trimChars cleaned)

/-! ### The process supervisor `runWorkflowSession` (source lines 299-417)

The session is modelled as a deterministic function of its environment:
the readable content of the workflow's status file, the wall-clock timestamp,
the merged sequence of output chunks arriving from the supervised process's
stdout/stderr streams (the two drain loops interleave their writes in arrival
order; a stream-read failure is caught in the source and simply truncates the
chunk sequence), and the result of awaiting the process exit status
(`Except.error` models `await process.status` throwing). Side effects are
returned as an ordered trace. -/

/-- One observable side effect of the supervisor, in source order.
`console` models writing to the tool's own stdout/stderr; the supervisor
never emits it. -/
inductive Effect where
  | writeTextFile (path content : String)
  | spawn (cmd : String) (args : List String)
  | openLog (path : String) (truncate append : Bool)
  | logWrite (data : String)
  | closeLog
  | console (s : String)
deriving DecidableEq, Repr

/-- Environment of one `runWorkflowSession` call. -/
structure SessionInput where
  /-- Content of `logs/<w>.status`; `none` means the read throws (no file). -/
  statusContent : Option String
  /-- `new Date().toISOString()` at resume-marker time. -/
  timestamp : String
  /-- Output chunks drained from the process's stdout/stderr, merged in
  arrival order. -/
  outputChunks : List String
  /-- Result of `await process.status`: `.ok success` for an orderly exit,
  `.error ()` when awaiting the status throws. -/
  procExit : Except Unit Bool
deriving Repr

/-- `wasWorkflowAbandoned(workflow)` (source lines 299-307): read the status
file and compare its trimmed content with `"RUNNING"`; a failed read
yields `false`. -/
def wasWorkflowAbandoned (statusContent : Option String) : Bool :=
  match statusContent with
  | some status => String.mk (trimChars status.data) == "RUNNING"
  | none => false

/-- The resume delimiter (source lines 369-370):
`\n\n${"=".repeat(80)}\nRESUMING WORKFLOW AT ${timestamp}\n${"=".repeat(80)}\n\n`. -/
def resumeMarker (timestamp : String) : String :=
  "\n\n" ++ String.mk (List.replicate 80 '=') ++ "\nRESUMING WORKFLOW AT " ++
  timestamp ++ "\n" ++ String.mk (List.replicate 80 '=') ++ "\n\n"

/-- The status write performed after `await process.status` (source lines
407-413): `COMPLETED` on a zero exit code, `FAILED` on a non-zero one, and
nothing when awaiting the status threw. -/
def finalStatusEffects (statusFile : String) : Except Unit Bool → List Effect
  | Except.ok true => [Effect.writeTextFile statusFile "COMPLETED"]
  | Except.ok false => [Effect.writeTextFile statusFile "FAILED"]
  | Except.error _ => []

/-- `runWorkflowSession(workflow, projects)` (source lines 321-417).
Returns the call's result — `true`/`false` mirroring the exit code, or
`.error ()` when the body throws (after the `finally` releases the log
handle) — together with the ordered effect trace:

* fresh start: write `RUNNING` to the status file, build and save the prompt,
  spawn `copilot -p <prompt> ...`, open the log truncating;
* resume: spawn `copilot --resume ...`, open the log appending, write the
  timestamped resume marker;
* then the drained output chunks, the final status write on an orderly exit
  (`COMPLETED`/`FAILED` by exit code), and the `finally` close of the log
  handle on every path. -/
def runWorkflowSession (workflow : String) (projects : List String)
    (inp : SessionInput) : Except Unit Bool × List Effect :=
  let logFile := logFileOf workflow
  let statusFile := statusFileOf workflow
  let promptFile := promptFileOf workflow
  let shouldResume := wasWorkflowAbandoned inp.statusContent
  let argsAndPre : List String × List Effect :=
    if shouldResume then
      (["--resume", "--allow-all-tools", "--allow-all-paths"], [])
    else
      let prompt := buildWorkflowTodo workflow projects
      (["-p", prompt, "--allow-all-tools", "--allow-all-paths"],
       [Effect.writeTextFile statusFile "RUNNING",
        Effect.writeTextFile promptFile prompt])
  let markerEffects : List Effect :=
    if shouldResume then [Effect.logWrite (resumeMarker inp.timestamp)] else []
  (inp.procExit,
   argsAndPre.2 ++
   [Effect.spawn "copilot" argsAndPre.1,
    Effect.openLog logFile (!shouldResume) shouldResume] ++
   markerEffects ++
   inp.outputChunks.map Effect.logWrite ++
   finalStatusEffects statusFile inp.procExit ++
   [Effect.closeLog])

/-! ### Trace extractors -/

/-- The payloads of the `logWrite` effects of a trace, in order. -/
def logWritesOf (tr : List Effect) : List String :=
  tr.filterMap fun e =>
    match e with
    | Effect.logWrite d => some d
    | _ => none

/-- The `(path, content)` pairs of the `writeTextFile` effects of a trace. -/
def fileWritesOf (tr : List Effect) : List (String × String) :=
  tr.filterMap fun e =>
    match e with
    | Effect.writeTextFile p c => some (p, c)
    | _ => none

/-- The `(cmd, args)` pairs of the `spawn` effects of a trace. -/
def spawnsOf (tr : List Effect) : List (String × List String) :=
  tr.filterMap fun e =>
    match e with
    | Effect.spawn c a => some (c, a)
    | _ => none

/-- The `(path, truncate, append)` triples of the `openLog` effects. -/
def openLogsOf (tr : List Effect) : List (String × Bool × Bool) :=
  tr.filterMap fun e =>
    match e with
    | Effect.openLog p t a => some (p, t, a)
    | _ => none

def isSpawnEffect (e : Effect) : Bool :=
  match e with
  | Effect.spawn _ _ => true
  | _ => false

/-- The prefix of a trace before the process is spawned. -/
def preSpawnTrace (tr : List Effect) : List Effect :=
  tr.takeWhile (fun e => !isSpawnEffect e)

/-- The content of the last `writeTextFile` to `path` in a trace, i.e. the
state `path` is left in. -/
def lastWriteTo (path : String) (tr : List Effect) : Option String :=
  (tr.filterMap fun e =>
    match e with
    | Effect.writeTextFile p c => if p == path then some c else none
    | _ => none).getLast?

/-! ### The session orchestrator `runAllWorkflows` (source lines 420-453)

Concurrency is modelled by giving every asynchronous computation a settle
time (an abstract clock value) and a result; `Promise.all` fulfils at the
latest fulfilment time once every input promise has fulfilled, and rejects at
the earliest rejection time otherwise. The per-session environments and
settle times are supplied by an `OrchEnv`. -/

structure Promise (α : Type) where
  time : Nat
  result : Except Unit α

/-- JS `Promise.all`: if every promise fulfils, fulfil with all values once
the last one has settled; otherwise reject at the first rejection. -/
def promiseAll {α : Type} (ps : List (Promise α)) : Promise (List α) :=
  match ps.filterMap
      (fun p => match p.result with
        | Except.error _ => some p.time
        | Except.ok _ => none) with
  | [] =>
    { time := (ps.map Promise.time).foldl max 0,
      result := Except.ok (ps.filterMap fun p => p.result.toOption) }
  | t :: ts => { time := ts.foldl min t, result := Except.error () }

/-- Environment of one `runAllWorkflows` call: for each workflow, the
environment its `runWorkflowSession` call runs against and the time at which
that call settles. -/
structure OrchEnv where
  sessionInput : String → SessionInput
  sessionTime : String → Nat

/-- `WORKFLOW_ORDER.filter((w) => workflows.includes(w))` (source line 428). -/
def orderedSelection (workflows : List String) : List String :=
  WORKFLOW_ORDER.filter (fun w => workflows.contains w)

/-- The promise of one `runWorkflowSession(workflow, projects)` call under
`env`. -/
def sessionPromise (projects : List String) (env : OrchEnv) (workflow : String) :
    Promise Bool :=
  { time := env.sessionTime workflow,
    result := (runWorkflowSession workflow projects (env.sessionInput workflow)).1 }

/-- `runAllWorkflows(workflows, projects)` (source lines 420-453): snapshot
the workflow list, order it by `WORKFLOW_ORDER`, scan for abandoned sessions
(writing `resume-status.txt` when any are found), launch every session and
join them with `Promise.all`, then restore `selected-workflows.txt` from the
snapshot. The returned trace holds the orchestrator's own effects (the
sessions' effects live in their own traces); the final write happens only
when the join fulfils — a rejected join rethrows first. -/
def runAllWorkflows (workflows projects : List String) (env : OrchEnv) :
    Promise Unit × List Effect :=
  let workflowsSnapshot := workflows
  let orderedWorkflows := orderedSelection workflows
  let abandonedWorkflows := orderedWorkflows.filter
    (fun w => wasWorkflowAbandoned (env.sessionInput w).statusContent)
  let scanEffects : List Effect :=
    if abandonedWorkflows.length > 0 then
      [Effect.writeTextFile (STATE_DIR ++ "/resume-status.txt")
        ("Resuming abandoned workflows: " ++
         String.intercalate ", " abandonedWorkflows ++ "\n")]
    else []
  let joined := promiseAll (orderedWorkflows.map (sessionPromise projects env))
  match joined.result with
  | Except.ok _ =>
    ({ time := joined.time, result := Except.ok () },
     scanEffects ++
     [Effect.writeTextFile WORKFLOWS_FILE
       (String.intercalate "\n" workflowsSnapshot)])
  | Except.error e => ({ time := joined.time, result := Except.error e }, scanEffects)

/-! ### Status and progress derivation (source lines 460-497)

`getWorkflowProgress` returns whatever `JSON.parse` produced — the source
casts it to `WorkflowProgress` without validation — so the model carries an
untyped JSON value and reproduces the JavaScript semantics of the two
property accesses that follow. Numbers are modelled as integers (the
progress protocol only uses integer `current_task`). -/

inductive Json where
  | null
  | bool (b : Bool)
  | num (n : Int)
  | str (s : String)
  | arr (elems : List Json)
  | obj (fields : List (String × Json))

/-- JS truthiness of a parsed JSON value (`if (progress)`: `null`, `false`,
`0` and `""` are falsy, every array and object is truthy). -/
def Json.truthy : Json → Bool
  | Json.null => false
  | Json.bool b => b
  | Json.num n => n != 0
  | Json.str s => s != ""
  | Json.arr _ => true
  | Json.obj _ => true

/-- JS property access `v.key` on a truthy value: a lookup on objects,
`undefined` (`none`) on every other truthy value. -/
def Json.getField : Json → String → Option Json
  | Json.obj fields, key => fields.lookup key
  | _, _ => none

/-- Case-insensitive substring test `hay.toLowerCase().includes(needle.toLowerCase())`,
on character lists. -/
def charsHaveSub (needle hay : List Char) : Bool :=
  (List.range (hay.length + 1)).any fun i => needle.isPrefixOf (hay.drop i)

/-- JS `===` of a JSON value against the string `project`: only an equal
string compares true (SameValueZero and strict equality agree on strings and
never equate a string with a value of another type). -/
def Json.eqString : Json → String → Bool
  | Json.str s, project => s == project
  | _, _ => false

/-- JS `v.includes(project)`: `Array.prototype.includes` (SameValueZero
against the string `project`) on arrays, `String.prototype.includes`
(substring) on strings, and a `TypeError` (`none`) on `undefined` or any
value without an `includes` method. -/
def jsIncludes : Option Json → String → Option Bool
  | some (Json.arr elems), project => some (elems.any fun e => e.eqString project)
  | some (Json.str s), project => some (charsHaveSub project.data s.data)
  | _, _ => none

/-- JS `v === project` for a possibly-undefined property value: only a string
property equal to `project` compares true. -/
def jsStrictEqStr : Option Json → String → Bool
  | some (Json.str s), project => s == project
  | _, _ => false

/-- The readable state of one workflow's progress and log files. -/
structure StatusEnv where
  /-- `JSON.parse` of `progress/<w>-progress.json`; `none` when the read or
  the parse throws (both are caught in `getWorkflowProgress`). -/
  progress : Option Json
  /-- Content of `logs/<w>.log`; `none` when the read throws. -/
  log : Option String

/-- `getWorkflowProgress(workflow)` (source lines 460-469): the parsed
progress file, or `null` when reading or parsing fails. The file read and
the parse are supplied by the environment. -/
def getWorkflowProgress (env : StatusEnv) : Option Json := env.progress

def lowerChars (s : String) : List Char := s.data.map Char.toLower

/-- `log.toLowerCase().includes(project.toLowerCase())` (source line 486). -/
def logMentionsProject (log project : String) : Bool :=
  charsHaveSub (lowerChars project) (lowerChars log)

def passKeywords : List (List Char) := ["done".data, "completed".data, "pass".data]

/-- Match of `new RegExp(`${project}.*(?:done|completed|pass)`, "i")` against
one newline-free run of the log: some occurrence of `project` followed, later
in the same run, by one of the completion keywords (case-insensitively; both
sides are lowered to model the `i` flag). `project` is taken literally — the
model assumes it contains no regex metacharacters. -/
def lineHasPassPattern (proj line : List Char) : Bool :=
  (List.range (line.length + 1)).any fun i =>
    proj.isPrefixOf (line.drop i) &&
    passKeywords.any (fun k => charsHaveSub k (line.drop (i + proj.length)))

/-- Splits a character list at line terminators (`.` in a JS regex matches
neither `\n` nor `\r`). -/
def splitAtNewlines (l : List Char) : List (List Char) :=
  l.foldr
    (fun c acc =>
      match acc with
      | [] => if c = '\n' ∨ c = '\r' then [[], []] else [[c]]
      | line :: restLines =>
        if c = '\n' ∨ c = '\r' then [] :: line :: restLines
        else (c :: line) :: restLines)
    []

/-- `log.match(new RegExp(`${project}.*(?:done|completed|pass)`, "i"))`
(source line 487) as a Boolean: some line of the log matches. -/
def logHasPassMatch (project log : String) : Bool :=
  (splitAtNewlines (lowerChars log)).any (lineHasPassPattern (lowerChars project))

/-- The log-parsing fallback of `getProjectStatus` (source lines 484-496):
a failed log read, or a log that does not mention the project, falls through
to `PENDING`. -/
def logFallbackStatus (project : String) (env : StatusEnv) : String :=
  match env.log with
  | some log =>
    if logMentionsProject log project then
      if logHasPassMatch project log then "✅ PASS" else "🔄 RUNNING"
    else "⏸ PENDING"
  | none => "⏸ PENDING"

/-- `getProjectStatus(project, workflow)` (source lines 471-497). The
progress branch runs outside any `try`, so
`progress.completed_projects.includes(project)` throwing a `TypeError`
(modelled `Except.error ()`) escapes the function. -/
def getProjectStatus (project : String) (env : StatusEnv) : Except Unit String :=
  match getWorkflowProgress env with
  | some progress =>
    if progress.truthy then
      match jsIncludes (progress.getField "completed_projects") project with
      | none => Except.error ()
      | some true => Except.ok "✅ PASS"
      | some false =>
        if jsStrictEqStr (progress.getField "current_project") project then
          Except.ok "🔄 RUNNING"
        else Except.ok (logFallbackStatus project env)
    else Except.ok (logFallbackStatus project env)
  | none => Except.ok (logFallbackStatus project env)

/-! ### Dashboard layout (source lines 676-695) -/

def headerHeight : Int := 3

def footerHeight : Int := 3

def workflowHeaderHeight : Int := 4

/-- `availableHeight` (source lines 686-691): terminal rows minus header and
footer minus the per-workflow chrome of the expanded and the collapsed rows,
where `collapsedCount = orderedWorkflows.length - expandedCount`. -/
def availableHeight (terminalHeight : Int) (totalWorkflows expandedCount : Nat) : Int :=
  terminalHeight - headerHeight - footerHeight -
    (expandedCount : Int) * workflowHeaderHeight -
    ((totalWorkflows : Int) - (expandedCount : Int)) * workflowHeaderHeight

/-- `logHeightPerWorkflow` (source lines 694-695):
`expandedCount > 0 ? Math.floor(availableHeight / expandedCount) : 0`.
`Math.floor` of the exact float quotient is floor division (`Int.fdiv`). -/
def logHeightPerWorkflow (terminalHeight : Int) (totalWorkflows expandedCount : Nat) : Int :=
  if 0 < expandedCount then
    Int.fdiv (availableHeight terminalHeight totalWorkflows expandedCount) (expandedCount : Int)
  else 0

/-! ### Dashboard navigation state (source lines 668-732) -/

structure DashState where
  selectedIndex : Int
  expandedSet : Finset String
deriving DecidableEq

/-- `useState(0)` and `useState(new Set())` (source lines 668-669). -/
def initDashState : DashState := { selectedIndex := 0, expandedSet := ∅ }

/-- The state-mutating key events of the `useInput` handler (source lines
697-732; `q` only exits and mutates nothing). -/
inductive DashKey where
  | up
  | down
  | toggleExpand
  | collapse
  | expandAll
  | collapseAll

/-- One `useInput` event (source lines 697-732). The out-of-range guard in
`toggleExpand`/`collapse` is unreachable from states satisfying
`dashInvariant` (JS would look up `undefined`); within range the selected
workflow's membership in `expandedSet` is flipped resp. erased. -/
def dashStep (ws : List String) (s : DashState) : DashKey → DashState
  | DashKey.up => { s with selectedIndex := max 0 (s.selectedIndex - 1) }
  | DashKey.down =>
    { s with selectedIndex := min ((ws.length : Int) - 1) (s.selectedIndex + 1) }
  | DashKey.toggleExpand =>
    match ws[s.selectedIndex.toNat]? with
    | some w =>
      { s with expandedSet :=
          if w ∈ s.expandedSet then s.expandedSet.erase w
          else insert w s.expandedSet }
    | none => s
  | DashKey.collapse =>
    match ws[s.selectedIndex.toNat]? with
    | some w => { s with expandedSet := s.expandedSet.erase w }
    | none => s
  | DashKey.expandAll => { s with expandedSet := ws.toFinset }
  | DashKey.collapseAll => { s with expandedSet := ∅ }

/-- The dashboard-state invariants claimed by the spec: the selection cursor
is a valid index into the ordered selected-workflow list and every expanded
workflow is a selected one. -/
def dashInvariant (ws : List String) (s : DashState) : Prop :=
  0 ≤ s.selectedIndex ∧ s.selectedIndex < (ws.length : Int) ∧
  s.expandedSet ⊆ ws.toFinset

/-! ### Definitions used by individual claims -/

/-- The progress record of the spec's status-derivation example, as parsed:
`{"current_project":"web","current_task":2,"completed_projects":["api"]}`. -/
def progressRecordC3 : Json :=
  Json.obj
    [("current_project", Json.str "web"),
     ("current_task", Json.num 2),
     ("completed_projects", Json.arr [Json.str "api"])]

/-- Whether the readable log of `env` mentions `project`
(case-insensitively); a missing log mentions nothing. -/
def logMentionsIn (env : StatusEnv) (project : String) : Bool :=
  match env.log with
  | some log => logMentionsProject log project
  | none => false

/-- The dashboard state after a sequence of key events, starting from the
initial render state. -/
def dashRun (ws : List String) (keys : List DashKey) : DashState :=
  keys.foldl (dashStep ws) initDashState

/-- A concrete fresh-start session environment: no status file, no output,
zero exit code. -/
def freshSessionInput : SessionInput :=
  { statusContent := none, timestamp := "2025-01-01T00:00:00.000Z",
    outputChunks := [], procExit := Except.ok true }

/-- A concrete orchestrator environment in which the `type` session fails
immediately (exit status `false` at time 0) while the `lint` session keeps
running until time 7 and succeeds. -/
def joinScenarioEnv : OrchEnv :=
  { sessionInput := fun w =>
      { statusContent := none, timestamp := "T",
        outputChunks := [],
        procExit := Except.ok (w == "lint") },
    sessionTime := fun w => if w == "type" then 0 else 7 }

/-- A concrete orchestrator environment in which both selected sessions
settle orderly. -/
def restoreScenarioEnv : OrchEnv :=
  { sessionInput := fun _ =>
      { statusContent := none, timestamp := "T",
        outputChunks := ["out"],
        procExit := Except.ok true },
    sessionTime := fun _ => 3 }

/-! ### Helper lemmas -/

theorem stringJoin_cons (a : String) (l : List String) :
    String.join (a :: l) = a ++ String.join l := by
  simp [String.join_eq]
  rfl

theorem foldl_append_eq_join {α : Type} (f : α → String) (l : List α) (init : String) :
    l.foldl (fun acc x => acc ++ f x) init = init ++ String.join (l.map f) := by
  induction l generalizing init with
  | nil => simp [String.join]
  | cons x xs ih =>
    simp only [List.foldl_cons, List.map_cons]
    rw [ih, stringJoin_cons, String.append_assoc]

/-- The imperative `forEach` accumulation of `buildWorkflowTodo` equals the
declarative form: preamble, one numbered TODO line per enumerated project,
epilogue. -/
theorem buildWorkflowTodo_eq (w : String) (ps : List String) :
    buildWorkflowTodo w ps =
      promptPreamble w (workflowActionOf w) (workflowInstructionsOf w) ++
      String.join (ps.enum.map fun ip => todoLine (workflowActionOf w) ip.1 ip.2) ++
      promptEpilogue := by
  simp only [buildWorkflowTodo]
  rw [foldl_append_eq_join]

theorem promptFileOf_ne_statusFileOf (w : String) : promptFileOf w ≠ statusFileOf w := by
  intro h
  have hd : (promptFileOf w).data = (statusFileOf w).data := by rw [h]
  simp [promptFileOf, statusFileOf, LOG_DIR, STATE_DIR, String.data_append] at hd

theorem getLast?_cons_append_cons {α : Type} (x b : α) (l l2 : List α) :
    (x :: (l ++ b :: l2)).getLast? = (b :: l2).getLast? := by
  rw [← List.cons_append, List.getLast?_append_cons]

theorem filterMap_none_eq_nil {α β : Type} (l : List α) :
    l.filterMap (fun _ => (none : Option β)) = [] := by
  induction l <;> simp [*]

theorem init_le_foldl_max (l : List Nat) (init : Nat) : init ≤ l.foldl max init := by
  induction l generalizing init with
  | nil => exact le_refl _
  | cons a as ih => exact le_trans (le_max_left _ _) (ih _)

theorem mem_le_foldl_max (l : List Nat) (init x : Nat) (hx : x ∈ l) :
    x ≤ l.foldl max init := by
  induction l generalizing init with
  | nil => cases hx
  | cons a as ih =>
    rcases List.mem_cons.mp hx with rfl | h
    · exact le_trans (le_max_right _ _) (init_le_foldl_max _ _)
    · exact ih _ h

/-- When every input promise fulfils, `Promise.all` fulfils at the latest
settle time. -/
theorem promiseAll_ok {α : Type} (ps : List (Promise α))
    (h : ∀ p ∈ ps, p.result.isOk = true) :
    promiseAll ps =
      { time := (ps.map Promise.time).foldl max 0,
        result := Except.ok (ps.filterMap fun p => p.result.toOption) } := by
  unfold promiseAll
  have hnil : ps.filterMap
      (fun p => match p.result with
        | Except.error _ => some p.time
        | Except.ok _ => none) = [] := by
    rw [List.filterMap_eq_nil_iff]
    intro p hp
    rcases hr : p.result with e | v
    · have hok := h p hp
      rw [hr] at hok
      simp [Except.isOk, Except.toBool] at hok
    · simp [hr]
  rw [hnil]

/-- One key event preserves the dashboard-state invariants. -/
theorem dashStep_invariant (ws : List String) (s : DashState) (k : DashKey)
    (h : dashInvariant ws s) : dashInvariant ws (dashStep ws s k) := by
  obtain ⟨h0, hlen, hsub⟩ := h
  cases k
  case up =>
    refine ⟨le_max_left _ _, ?_, hsub⟩
    simp only [dashStep]
    omega
  case down =>
    have hpos : (0 : Int) < (ws.length : Int) := lt_of_le_of_lt h0 hlen
    refine ⟨?_, ?_, hsub⟩ <;> simp only [dashStep] <;> omega
  case toggleExpand =>
    rcases hg : ws[s.selectedIndex.toNat]? with _ | w
    · simpa [dashStep, hg] using ⟨h0, hlen, hsub⟩
    · have hwmem : w ∈ ws := by
        rw [List.getElem?_eq_some] at hg
        obtain ⟨hn, rfl⟩ := hg
        exact List.getElem_mem hn
      simp only [dashStep, hg]
      refine ⟨h0, hlen, ?_⟩
      by_cases hmem : w ∈ s.expandedSet
      · simp only [hmem, if_true]
        exact subset_trans (Finset.erase_subset _ _) hsub
      · simp only [hmem, if_false]
        exact Finset.insert_subset (List.mem_toFinset.mpr hwmem) hsub
  case collapse =>
    rcases hg : ws[s.selectedIndex.toNat]? with _ | w
    · simpa [dashStep, hg] using ⟨h0, hlen, hsub⟩
    · simp only [dashStep, hg]
      exact ⟨h0, hlen, subset_trans (Finset.erase_subset _ _) hsub⟩
  case expandAll =>
    exact ⟨h0, hlen, subset_refl _⟩
  case collapseAll =>
    exact ⟨h0, hlen, Finset.empty_subset _⟩

theorem dashInvariant_foldl (ws : List String) (keys : List DashKey) (s : DashState)
    (h : dashInvariant ws s) : dashInvariant ws (keys.foldl (dashStep ws) s) := by
  induction keys generalizing s with
  | nil => exact h
  | cons k ks ih => exact ih _ (dashStep_invariant _ _ _ h)

/-- A concrete resumed-session environment: status file reads `RUNNING`, one
output chunk, non-zero exit code. -/
def resumeSessionInput : SessionInput :=
  { statusContent := some "RUNNING", timestamp := "2025-01-02T00:00:00.000Z",
    outputChunks := ["chunk"], procExit := Except.ok false }

/-! ### Claim theorems -/

/-- Claim C1: `runWorkflowSession` decides resume vs fresh from the persisted
status file. If the trimmed status reads `RUNNING`, `copilot` is invoked with
the resume flag and no instruction text, the log is opened in append mode,
and the timestamped resume delimiter is the first log write, before any
process output; nothing is written before the spawn. Otherwise the status
file is set to `RUNNING` and the synthesized prompt — preamble, one
enumerated TODO line per project, epilogue — is saved, both before the
spawn, and the log is opened in truncate mode. -/
theorem c1_resume_vs_fresh_decision (w : String) (ps : List String) (inp : SessionInput) :
    if wasWorkflowAbandoned inp.statusContent then
      spawnsOf (runWorkflowSession w ps inp).2 =
        [("copilot", ["--resume", "--allow-all-tools", "--allow-all-paths"])] ∧
      openLogsOf (runWorkflowSession w ps inp).2 = [(logFileOf w, false, true)] ∧
      logWritesOf (runWorkflowSession w ps inp).2 =
        resumeMarker inp.timestamp :: inp.outputChunks ∧
      fileWritesOf (preSpawnTrace (runWorkflowSession w ps inp).2) = []
    else
      fileWritesOf (preSpawnTrace (runWorkflowSession w ps inp).2) =
        [(statusFileOf w, "RUNNING"), (promptFileOf w, buildWorkflowTodo w ps)] ∧
      spawnsOf (runWorkflowSession w ps inp).2 =
        [("copilot",
          ["-p", buildWorkflowTodo w ps, "--allow-all-tools", "--allow-all-paths"])] ∧
      openLogsOf (runWorkflowSession w ps inp).2 = [(logFileOf w, true, false)] ∧
      logWritesOf (runWorkflowSession w ps inp).2 = inp.outputChunks ∧
      buildWorkflowTodo w ps =
        promptPreamble w (workflowActionOf w) (workflowInstructionsOf w) ++
        String.join (ps.enum.map fun ip => todoLine (workflowActionOf w) ip.1 ip.2) ++
        promptEpilogue := by
  rcases inp with ⟨sc, ts, chunks, pe⟩
  cases hres : wasWorkflowAbandoned sc
  · simp only [hres, Bool.false_eq_true, if_false]
    rcases pe with e | b
    · refine ⟨?_, ?_, ?_, ?_, buildWorkflowTodo_eq w ps⟩ <;>
        simp [runWorkflowSession, hres, spawnsOf, openLogsOf, logWritesOf,
          fileWritesOf, preSpawnTrace, finalStatusEffects, isSpawnEffect,
          List.filterMap_append, List.filterMap_cons, List.filterMap_map,
          Function.comp_def]
    · cases b <;>
        (refine ⟨?_, ?_, ?_, ?_, buildWorkflowTodo_eq w ps⟩ <;>
          simp [runWorkflowSession, hres, spawnsOf, openLogsOf, logWritesOf,
            fileWritesOf, preSpawnTrace, finalStatusEffects, isSpawnEffect,
            List.filterMap_append, List.filterMap_cons, List.filterMap_map,
            Function.comp_def])
  · simp only [hres, if_true]
    rcases pe with e | b
    · refine ⟨?_, ?_, ?_, ?_⟩ <;>
        simp [runWorkflowSession, hres, spawnsOf, openLogsOf, logWritesOf,
          fileWritesOf, preSpawnTrace, finalStatusEffects, isSpawnEffect,
          List.filterMap_append, List.filterMap_cons, List.filterMap_map,
          Function.comp_def]
    · cases b <;>
        (refine ⟨?_, ?_, ?_, ?_⟩ <;>
          simp [runWorkflowSession, hres, spawnsOf, openLogsOf, logWritesOf,
            fileWritesOf, preSpawnTrace, finalStatusEffects, isSpawnEffect,
            List.filterMap_append, List.filterMap_cons, List.filterMap_map,
            Function.comp_def])

/-- Claim C2: when the supervised process exits orderly, `runWorkflowSession`
leaves the status file at `COMPLETED` and returns `true` on a zero exit code,
and leaves it at `FAILED` and returns `false` on a non-zero one — in
particular the status is never left at `RUNNING` on an orderly exit — and on
every exit path (orderly, or the await throwing; a stream-read failure only
truncates the drained chunks) the last effect is the release of the log file
handle. -/
theorem c2_completion_and_handle_release (w : String) (ps : List String)
    (inp : SessionInput) :
    ((runWorkflowSession w ps inp).2).getLast? = some Effect.closeLog ∧
    match inp.procExit with
    | Except.ok true =>
        (runWorkflowSession w ps inp).1 = Except.ok true ∧
        lastWriteTo (statusFileOf w) (runWorkflowSession w ps inp).2 = some "COMPLETED"
    | Except.ok false =>
        (runWorkflowSession w ps inp).1 = Except.ok false ∧
        lastWriteTo (statusFileOf w) (runWorkflowSession w ps inp).2 = some "FAILED"
    | Except.error e => (runWorkflowSession w ps inp).1 = Except.error e := by
  rcases inp with ⟨sc, ts, chunks, pe⟩
  cases hres : wasWorkflowAbandoned sc <;>
    rcases pe with e | b <;>
    first
      | (cases b <;>
          (refine ⟨?_, ?_, ?_⟩ <;>
            simp [runWorkflowSession, hres, lastWriteTo, finalStatusEffects,
              promptFileOf_ne_statusFileOf w, getLast?_cons_append_cons,
              filterMap_none_eq_nil,
              List.filterMap_append, List.filterMap_cons, List.filterMap_map,
              Function.comp_def]))
      | (refine ⟨?_, ?_⟩ <;>
          simp [runWorkflowSession, hres, lastWriteTo, finalStatusEffects,
            promptFileOf_ne_statusFileOf w, getLast?_cons_append_cons,
            filterMap_none_eq_nil,
            List.filterMap_append, List.filterMap_cons, List.filterMap_map,
            Function.comp_def])

/-- Claim C3 (counterexample): with the progress record
`{"current_project":"web","current_task":2,"completed_projects":["api"]}`,
`getProjectStatus("docs", w)` is not `PENDING` for every such workflow state:
when the workflow's log file contains `"docs"`, the log-parsing fallback
classifies `docs` as `RUNNING`. -/
theorem c3_docs_pending_counterexample :
    getProjectStatus "docs"
        { progress := some progressRecordC3, log := some "docs" } =
      Except.ok "🔄 RUNNING" ∧
    "🔄 RUNNING" ≠ "⏸ PENDING" :=
  ⟨rfl, by decide⟩

/-- Claim C3 (amended): with the progress record
`{"current_project":"web","current_task":2,"completed_projects":["api"]}`,
`getProjectStatus("api", w)` is `PASS` and `getProjectStatus("web", w)` is
`RUNNING` (membership in `completed_projects` is checked before equality with
`current_project`), whatever the log contains; and `getProjectStatus("docs", w)`
is `PENDING` provided the log does not mention `docs` (for instance when it
is absent). -/
theorem c3_status_derivation_amended (env : StatusEnv)
    (hprog : env.progress = some progressRecordC3) :
    getProjectStatus "api" env = Except.ok "✅ PASS" ∧
    getProjectStatus "web" env = Except.ok "🔄 RUNNING" ∧
    (logMentionsIn env "docs" = false →
      getProjectStatus "docs" env = Except.ok "⏸ PENDING") := by
  rcases env with ⟨p, lg⟩
  simp only at hprog
  subst hprog
  refine ⟨rfl, rfl, ?_⟩
  intro hm
  rcases lg with _ | log
  · rfl
  · simp only [logMentionsIn] at hm
    show Except.ok (logFallbackStatus "docs" ⟨some progressRecordC3, some log⟩) =
      Except.ok "⏸ PENDING"
    simp [logFallbackStatus, hm]

/-- Claim C3 (witness): the amended statement at the concrete environment
whose log file is absent. -/
theorem c3_status_derivation_witness :
    getProjectStatus "api" { progress := some progressRecordC3, log := none } =
      Except.ok "✅ PASS" ∧
    getProjectStatus "docs" { progress := some progressRecordC3, log := none } =
      Except.ok "⏸ PENDING" :=
  ⟨(c3_status_derivation_amended _ rfl).1,
   (c3_status_derivation_amended _ rfl).2.2 rfl⟩

/-- Claim C4: `getProjectStatus` is claimed never to throw on a malformed
progress file, but a progress file holding the valid JSON `{}` (truthy, yet
without a `completed_projects` field) makes
`progress.completed_projects.includes(project)` throw a `TypeError` that
escapes `getProjectStatus` — the guarded fallback to `PENDING` is never
reached. -/
theorem c4_malformed_progress_throws :
    getProjectStatus "web" { progress := some (Json.obj []), log := none } =
      Except.error () := rfl

/-- Claim C5: when every selected workflow's `runWorkflowSession` call
settles orderly (reaches a terminal status, successful or failed),
`runAllWorkflows` fulfils — a failed session is not escalated — and it
settles no earlier than every session, the join of all of them. -/
theorem c5_orchestrator_join (workflows projects : List String) (env : OrchEnv)
    (hok : ∀ w ∈ orderedSelection workflows,
      ((runWorkflowSession w projects (env.sessionInput w)).1).isOk = true) :
    (runAllWorkflows workflows projects env).1.result = Except.ok () ∧
    ∀ w ∈ orderedSelection workflows,
      env.sessionTime w ≤ (runAllWorkflows workflows projects env).1.time := by
  have hall : ∀ p ∈ (orderedSelection workflows).map (sessionPromise projects env),
      p.result.isOk = true := by
    intro p hp
    rcases List.mem_map.mp hp with ⟨w, hw, rfl⟩
    exact hok w hw
  have hjoin := promiseAll_ok _ hall
  constructor
  · simp only [runAllWorkflows, hjoin]
  · intro w hw
    simp only [runAllWorkflows, hjoin]
    have hmem : env.sessionTime w ∈
        (((orderedSelection workflows).map (sessionPromise projects env)).map
          Promise.time) := by
      rw [List.map_map]
      exact List.mem_map.mpr ⟨w, hw, rfl⟩
    exact mem_le_foldl_max _ _ _ hmem

/-- Claim C5 (witness): with `type` failing immediately (terminal status
`FAILED` at time 0) and `lint` succeeding at time 7, the orchestrator still
fulfils and settles no earlier than time 7. -/
theorem c5_orchestrator_join_witness :
    (runAllWorkflows ["lint", "type"] ["web"] joinScenarioEnv).1.result =
      Except.ok () ∧
    7 ≤ (runAllWorkflows ["lint", "type"] ["web"] joinScenarioEnv).1.time := by
  have h := c5_orchestrator_join ["lint", "type"] ["web"] joinScenarioEnv (by decide)
  exact ⟨h.1, h.2 "lint" (by decide)⟩

/-- Claim C6 (counterexample): a fresh `runWorkflowSession` invocation also
writes the workflow's prompt file, a third file distinct from the status file
and the log file — the invocation does not mutate only one status file and
one log file. -/
theorem c6_prompt_file_counterexample :
    Effect.writeTextFile (promptFileOf "lint") (buildWorkflowTodo "lint" ["web"])
      ∈ (runWorkflowSession "lint" ["web"] freshSessionInput).2 ∧
    promptFileOf "lint" ≠ statusFileOf "lint" ∧
    promptFileOf "lint" ≠ logFileOf "lint" := by
  have htr : (runWorkflowSession "lint" ["web"] freshSessionInput).2 =
      [Effect.writeTextFile (statusFileOf "lint") "RUNNING",
       Effect.writeTextFile (promptFileOf "lint") (buildWorkflowTodo "lint" ["web"]),
       Effect.spawn "copilot"
         ["-p", buildWorkflowTodo "lint" ["web"], "--allow-all-tools",
          "--allow-all-paths"],
       Effect.openLog (logFileOf "lint") true false,
       Effect.writeTextFile (statusFileOf "lint") "COMPLETED",
       Effect.closeLog] := rfl
  refine ⟨?_, by decide, by decide⟩
  rw [htr]
  simp

/-- Claim C6 (amended): every file written by `runWorkflowSession(w, ps)` is
workflow `w`'s own status file or prompt file (only the status file when
resuming; the prompt file is written only on a fresh start), the only file
opened for the output stream is `w`'s log file, and the trace never touches
the process's own console output. -/
theorem c6_frame_amended (w : String) (ps : List String) (inp : SessionInput) :
    (∀ p c, Effect.writeTextFile p c ∈ (runWorkflowSession w ps inp).2 →
      p = statusFileOf w ∨ p = promptFileOf w) ∧
    (∀ p t a, Effect.openLog p t a ∈ (runWorkflowSession w ps inp).2 →
      p = logFileOf w) ∧
    (∀ s, Effect.console s ∉ (runWorkflowSession w ps inp).2) ∧
    (wasWorkflowAbandoned inp.statusContent = true →
      ∀ p c, Effect.writeTextFile p c ∈ (runWorkflowSession w ps inp).2 →
        p = statusFileOf w) := by
  rcases inp with ⟨sc, ts, chunks, pe⟩
  cases hres : wasWorkflowAbandoned sc <;>
    rcases pe with e | b <;>
    first
      | (cases b <;>
          (refine ⟨?_, ?_, ?_, ?_⟩ <;>
            (intros
             simp_all [runWorkflowSession, hres, finalStatusEffects,
               List.mem_append, List.mem_cons, List.mem_map]
             try tauto)))
      | (refine ⟨?_, ?_, ?_, ?_⟩ <;>
          (intros
           simp_all [runWorkflowSession, hres, finalStatusEffects,
             List.mem_append, List.mem_cons, List.mem_map]
           try tauto))

/-- Claim C6 (witness): the amended statement applied to a concrete fresh run
(the status write is one of the two permitted paths, no console write) and to
a concrete resumed run (where every write goes to the status file). -/
theorem c6_frame_amended_witness :
    (statusFileOf "lint" = statusFileOf "lint" ∨
      statusFileOf "lint" = promptFileOf "lint") ∧
    Effect.console "boom" ∉ (runWorkflowSession "lint" ["web"] freshSessionInput).2 ∧
    statusFileOf "lint" = statusFileOf "lint" := by
  refine ⟨?_, ?_, ?_⟩
  · exact (c6_frame_amended "lint" ["web"] freshSessionInput).1
      (statusFileOf "lint") "RUNNING" (by decide)
  · exact (c6_frame_amended "lint" ["web"] freshSessionInput).2.2.1 "boom"
  · exact (c6_frame_amended "lint" ["web"] resumeSessionInput).2.2.2 (by decide)
      (statusFileOf "lint") "FAILED" (by decide)

/-- Claim C7: the Dashboard's available vertical space equals terminal rows
minus the fixed header and footer height minus the per-workflow chrome height
times the total workflow count (the source splits the product over expanded
and collapsed rows), and each expanded workflow's log allocation is the
rational floor of `available / expandedCount` when any workflow is expanded
and `0` otherwise. -/
theorem c7_layout_arithmetic (h : Int) (total E : Nat) :
    availableHeight h total E =
      h - (headerHeight + footerHeight) - workflowHeaderHeight * (total : Int) ∧
    logHeightPerWorkflow h total E =
      (if 0 < E then ⌊(availableHeight h total E : ℚ) / (E : ℚ)⌋ else 0) := by
  constructor
  · unfold availableHeight headerHeight footerHeight workflowHeaderHeight
    ring
  · unfold logHeightPerWorkflow
    by_cases hE : 0 < E
    · simp only [hE, if_true]
      rw [Rat.floor_intCast_div_natCast]
      exact Int.fdiv_eq_ediv _ (by exact_mod_cast Nat.zero_le E)
    · simp only [hE, if_false]

/-- Claim C8: over any key-event sequence on a non-empty ordered
selected-workflow list, the dashboard state keeps `selectedIndex` inside
`[0, count-1]` and `expandedSet` a subset of the selected workflows; from the
reached state, moving down at the last index stays at the last index (no
wraparound), toggle-expand flips the selected workflow's membership and
explicit collapse removes it, and expand-all/collapse-all set `expandedSet`
to the full ordered set resp. the empty set. -/
theorem c8_navigation_invariants (ws : List String) (hws : ws ≠ [])
    (keys : List DashKey) :
    dashInvariant ws (dashRun ws keys) ∧
    ((dashRun ws keys).selectedIndex = (ws.length : Int) - 1 →
      (dashStep ws (dashRun ws keys) DashKey.down).selectedIndex =
        (ws.length : Int) - 1) ∧
    (∀ w, ws[(dashRun ws keys).selectedIndex.toNat]? = some w →
      ((w ∈ (dashRun ws keys).expandedSet ↔
          w ∉ (dashStep ws (dashRun ws keys) DashKey.toggleExpand).expandedSet) ∧
       w ∉ (dashStep ws (dashRun ws keys) DashKey.collapse).expandedSet)) ∧
    (dashStep ws (dashRun ws keys) DashKey.expandAll).expandedSet = ws.toFinset ∧
    (dashStep ws (dashRun ws keys) DashKey.collapseAll).expandedSet = ∅ := by
  have hinv : dashInvariant ws (dashRun ws keys) := by
    apply dashInvariant_foldl
    refine ⟨le_refl 0, ?_, Finset.empty_subset _⟩
    show (0 : Int) < (ws.length : Int)
    exact_mod_cast List.length_pos.mpr hws
  refine ⟨hinv, ?_, ?_, rfl, rfl⟩
  · intro hlast
    simp only [dashStep, hlast]
    omega
  · intro w hg
    simp only [dashStep, hg]
    refine ⟨⟨?_, ?_⟩, Finset.not_mem_erase _ _⟩
    · intro hmem
      simp only [hmem, if_true]
      exact Finset.not_mem_erase _ _
    · intro hnot
      by_contra hmem
      apply hnot
      rw [if_neg hmem]
      exact Finset.mem_insert_self _ _

/-- Claim C8 (witness): with the four ordered workflows and three `down`
events the cursor reaches the last index and stays there on a further
`down`; toggling then expands `lint`. -/
theorem c8_navigation_invariants_witness :
    dashInvariant ["type", "build", "test", "lint"]
      (dashRun ["type", "build", "test", "lint"]
        [DashKey.down, DashKey.down, DashKey.down]) ∧
    (dashStep ["type", "build", "test", "lint"]
        (dashRun ["type", "build", "test", "lint"]
          [DashKey.down, DashKey.down, DashKey.down])
        DashKey.down).selectedIndex =
      ((["type", "build", "test", "lint"] : List String).length : Int) - 1 ∧
    "lint" ∈ (dashStep ["type", "build", "test", "lint"]
        (dashRun ["type", "build", "test", "lint"]
          [DashKey.down, DashKey.down, DashKey.down])
        DashKey.toggleExpand).expandedSet := by
  have h := c8_navigation_invariants ["type", "build", "test", "lint"]
    (by decide) [DashKey.down, DashKey.down, DashKey.down]
  refine ⟨h.1, h.2.1 (by decide), ?_⟩
  have hiff := (h.2.2.1 "lint" (by decide)).1
  by_contra hnot
  have : "lint" ∈ (dashRun ["type", "build", "test", "lint"]
      [DashKey.down, DashKey.down, DashKey.down]).expandedSet := hiff.mpr hnot
  exact (by decide : ¬("lint" ∈ (dashRun ["type", "build", "test", "lint"]
      [DashKey.down, DashKey.down, DashKey.down]).expandedSet)) this

/-- Claim C9: sanitizing the line `"\x1b[31merror\x1b[0m\r\n"` yields
`"error"` — the ANSI escape sequences and the carriage return are stripped
and the result is trimmed. -/
theorem c9_sanitize_example :
    sanitizeLogLine "\x1b[31merror\x1b[0m\r\n" = "error" := by decide

/-- Claim C10: on every normal completion (all joined sessions settle
orderly), the last effect of `runAllWorkflows` is the restoration of
`selected-workflows.txt` from the entry snapshot of its `workflows` argument,
joined by newlines — a write beyond the per-workflow log and status files. -/
theorem c10_workflows_file_restore (workflows projects : List String) (env : OrchEnv)
    (hok : ∀ w ∈ orderedSelection workflows,
      ((runWorkflowSession w projects (env.sessionInput w)).1).isOk = true) :
    ((runAllWorkflows workflows projects env).2).getLast? =
      some (Effect.writeTextFile WORKFLOWS_FILE
        (String.intercalate "\n" workflows)) := by
  have hall : ∀ p ∈ (orderedSelection workflows).map (sessionPromise projects env),
      p.result.isOk = true := by
    intro p hp
    rcases List.mem_map.mp hp with ⟨w, hw, rfl⟩
    exact hok w hw
  have hjoin := promiseAll_ok _ hall
  simp only [runAllWorkflows, hjoin]
  exact List.getLast?_concat _

/-- Claim C10 (witness): the restore write at a concrete two-workflow run. -/
theorem c10_workflows_file_restore_witness :
    ((runAllWorkflows ["type", "lint"] ["web"] restoreScenarioEnv).2).getLast? =
      some (Effect.writeTextFile WORKFLOWS_FILE
        (String.intercalate "\n" ["type", "lint"])) :=
  c10_workflows_file_restore ["type", "lint"] ["web"] restoreScenarioEnv (by decide)

end Gopher
